import Mathlib

/-!
Verification of the classifier-runner layer of thesislib.

The development embeds the index arithmetic, classifier-map construction,
fold-selection logic and error-handling control flow of
`thesislib/utils/ml/runners.py`, and the data-preparation and run control
flow of `thesislib/utils/dl/bench.py`.  Matrices never need to be
materialised: the properties under study are about column-index
arithmetic, which is embedded exactly.  numpy `uint16` index arrays are
embedded as naturals reduced modulo 2^16 where the source uses
`dtype=np.uint16`.  Fold scores are embedded as rationals.  The sparse
encoders (`DLSparseMaker`, `ThesisSymptomSparseMaker`,
`ThesisAIMEDSymptomSparseMaker`) live outside the two source files; the few
definitions that depend on them are modelled from the specification and are
marked as such in their doc comments.
-/

namespace Thesislib

/-! ## Shared numeric helpers -/

/-- Arithmetic mean of a list of rationals, `np.mean`. -/
def listMean (l : List ℚ) : ℚ := l.sum / l.length

/-- Tail of the first-minimum scan: current minimum, its index, index of the
next element to inspect. -/
def argminAux (cur : ℚ) (curIdx next : ℕ) : List ℚ → ℕ
  | [] => curIdx
  | x :: xs => if x < cur then argminAux x next (next + 1) xs
               else argminAux cur curIdx (next + 1) xs

/-- `np.argmin`: index of the first minimal entry of the vector. -/
def argmin : List ℚ → ℕ
  | [] => 0
  | x :: xs => argminAux x 0 1 xs

/-! ## Classifier-map feature-group ranges (C1)

`train_nb` (runners.py 209-215) builds the basic classifier map with the
single columns 0, 1, 2 and the slice `(3, None)`; a python `None` end is
resolved to the width of the encoded matrix, `3 + num_symptoms` for the
basic encoder.  `train_ai_med_adv_nb` (runners.py 759-793) builds the
advanced-NLICE map over the reordered matrix of width
`num_features = num_symptoms * 8 + 3`. -/

/-- Ranges of the basic classifier map in `train_nb`: columns 0, 1, 2 and
`(3, None)` resolved against the basic encoded width `3 + n`. -/
def basicClassifierRanges (n : ℕ) : List (ℕ × ℕ) :=
  [(0, 1), (1, 2), (2, 3), (3, 3 + n)]

/-- `symptom_indices_end = 3 + num_symptoms` (runners.py 781). -/
def symptomIndicesEnd (n : ℕ) : ℕ := 3 + n

/-- `categorical_indices_end = symptom_indices_end + 33 * 5` (runners.py 782):
five categorical groups, each assumed 33 columns wide. -/
def categoricalIndicesEnd (n : ℕ) : ℕ := symptomIndicesEnd n + 33 * 5

/-- `num_features = num_symptoms * 8 + 3` (runners.py 759). -/
def advNumFeatures (n : ℕ) : ℕ := n * 8 + 3

/-- Ranges of the advanced-NLICE classifier map in `train_ai_med_adv_nb`
(runners.py 786-793), with the final `(categorical_indices_end, None)`
slice end resolved to the reordered matrix width `num_features`. -/
def advClassifierRanges (n : ℕ) : List (ℕ × ℕ) :=
  [(0, 1), (1, 2), (2, 3),
   (3, symptomIndicesEnd n),
   (symptomIndicesEnd n, categoricalIndicesEnd n),
   (categoricalIndicesEnd n, advNumFeatures n)]

/-- Multiset of columns covered by a list of `[start, stop)` ranges. -/
def coveredColumns (ranges : List (ℕ × ℕ)) : List ℕ :=
  (ranges.map fun r => List.Ico r.1 r.2).flatten

/-- The ranges partition `[0, width)`: every column of the matrix is covered by
exactly one range and no range reaches outside the matrix. -/
def PartitionsWidth (ranges : List (ℕ × ℕ)) (width : ℕ) : Prop :=
  List.Perm (coveredColumns ranges) (List.range width)

instance (ranges : List (ℕ × ℕ)) (width : ℕ) : Decidable (PartitionsWidth ranges width) :=
  List.decidablePerm _ _

/-! ## Column reordering of `train_ai_med_adv_nb` (C2)

runners.py 759-779.  `symptom_indices = np.arange(3, num_features, 8,
dtype=np.uint16)` stores the values `3 + 8*k` reduced modulo 2^16, and each
sub-attribute index array is an elementwise uint16 addition on it. -/

/-- uint16 wrap-around of numpy index arithmetic. -/
def u16 (x : ℕ) : ℕ := x % 65536

/-- `reg_indices = np.array([0, 1, 2])` (runners.py 760). -/
def advRegIndices : List ℕ := [0, 1, 2]

/-- `symptom_indices = np.arange(3, num_features, 8, dtype=np.uint16)`
(runners.py 761): `n` entries `(3 + 8*k) mod 2^16`. -/
def symptomIndices (n : ℕ) : List ℕ := (List.range n).map fun k => u16 (3 + 8 * k)

/-- `nature_indices = symptom_indices + 1` (runners.py 762). -/
def natureIndices (n : ℕ) : List ℕ := (symptomIndices n).map fun x => u16 (x + 1)

/-- `location_indices = symptom_indices + 2` (runners.py 763). -/
def locationIndices (n : ℕ) : List ℕ := (symptomIndices n).map fun x => u16 (x + 2)

/-- `intensity_indices = symptom_indices + 3` (runners.py 764). -/
def intensityIndices (n : ℕ) : List ℕ := (symptomIndices n).map fun x => u16 (x + 3)

/-- `duration_indices = symptom_indices + 4` (runners.py 765). -/
def durationIndices (n : ℕ) : List ℕ := (symptomIndices n).map fun x => u16 (x + 4)

/-- `onset_indices = symptom_indices + 5` (runners.py 766). -/
def onsetIndices (n : ℕ) : List ℕ := (symptomIndices n).map fun x => u16 (x + 5)

/-- `excitation_indices = symptom_indices + 6` (runners.py 767). -/
def excitationIndices (n : ℕ) : List ℕ := (symptomIndices n).map fun x => u16 (x + 6)

/-- `frequency_indices = symptom_indices + 7` (runners.py 768). -/
def frequencyIndices (n : ℕ) : List ℕ := (symptomIndices n).map fun x => u16 (x + 7)

/-- `new_indices = np.hstack([...])` (runners.py 774-779): demographics,
presence columns, the five categorical blocks, then the two gaussian blocks. -/
def advNewIndices (n : ℕ) : List ℕ :=
  advRegIndices ++ symptomIndices n ++ natureIndices n ++ locationIndices n ++
    intensityIndices n ++ excitationIndices n ++ frequencyIndices n ++
    durationIndices n ++ onsetIndices n

/-- Column arrangement asserted by the specification for the advanced
reordering: demographics first, then the presence columns at their original
interleaved positions `3 + 8k`, then the categorical sub-attribute blocks in
the order nature, location, intensity, excitation, frequency, then duration
and onset.  Stated from the claim, to be compared with `advNewIndices`. -/
def advNewIndicesSpec (n : ℕ) : List ℕ :=
  [0, 1, 2] ++ (List.range n).map (fun k => 3 + 8 * k) ++
    (List.range n).map (fun k => 4 + 8 * k) ++
    (List.range n).map (fun k => 5 + 8 * k) ++
    (List.range n).map (fun k => 6 + 8 * k) ++
    (List.range n).map (fun k => 9 + 8 * k) ++
    (List.range n).map (fun k => 10 + 8 * k) ++
    (List.range n).map (fun k => 7 + 8 * k) ++
    (List.range n).map (fun k => 8 + 8 * k)

/-! ## NLICE reordering in `train_nb` and `train_ai_med_nb` (C5, C8) -/

/-- `bern_indices` (runners.py 219-222 and 495-498): every column index below
the matrix width that is not in `reg_indices`, in increasing order. -/
def bernIndices (reg : List ℕ) (width : ℕ) : List ℕ :=
  (List.range width).filter fun idx => decide (¬ idx ∈ reg)

/-- `reg_indices = [0, 1, 2] + [9, 12, 20, 25]` in the NLICE branch of
`train_nb` (runners.py 218). -/
def trainNbRegIndices : List ℕ := [0, 1, 2] ++ [9, 12, 20, 25]

/-- `new_indices = reg_indices + bern_indices` in `train_nb` (runners.py 223). -/
def trainNbNewIndices (width : ℕ) : List ℕ :=
  trainNbRegIndices ++ bernIndices trainNbRegIndices width

/-- `symptom_vector = sorted(symptoms_db.keys())` (runners.py 445). -/
def symptomVector (keys : List String) : List String :=
  keys.mergeSort fun a b => decide (a ≤ b)

/-- `sorted_symptoms[key]`: position of `key` in the sorted symptom vector,
built by `{key: idx for idx, key in enumerate(symptom_vector)}`
(runners.py 446). -/
def sortedSymptomIndex (keys : List String) (k : String) : ℕ :=
  (symptomVector keys).indexOf k

/-- `nlice_indices = [sorted_symptoms[key] + 3 for key in nlice_symptoms]`
(runners.py 447). -/
def nliceIndices (keys nliceSymptoms : List String) : List ℕ :=
  nliceSymptoms.map fun k => sortedSymptomIndex keys k + 3

/-- Column index asserted by the claim: the symptom's stable vocabulary index
in insertion order, plus the demographic offset 3.  Stated from the claim, to
be compared with the source's `sortedSymptomIndex`-based computation. -/
def insertionOrderIndex (keys : List String) (k : String) : ℕ :=
  keys.indexOf k + 3

/-- `reg_indices = [0, 1, 2] + nlice_indices` in `train_ai_med_nb`
(runners.py 492-493). -/
def aiMedRegIndices (keys nliceSymptoms : List String) : List ℕ :=
  [0, 1, 2] ++ nliceIndices keys nliceSymptoms

/-- `new_indices = reg_indices + bern_indices` in `train_ai_med_nb`
(runners.py 499). -/
def aiMedNewIndices (keys nliceSymptoms : List String) (width : ℕ) : List ℕ :=
  aiMedRegIndices keys nliceSymptoms ++ bernIndices (aiMedRegIndices keys nliceSymptoms) width

/-! ## Fold selection in the cross-validated runners (C3, C10) -/

/-- `report.ACCURACY_SCORE`.  The module `report.py` is not under src; the
exact string value is immaterial to the claims, which only test membership of
this key among the tracked scorer keys. -/
def ACCURACY_SCORE : String := "accuracy"

/-- `abs_test_score` of `train_ai_med_rf` and `train_ai_med_adv_rf`
(runners.py 386, 675): absolute deviation of each fold's TRAIN accuracy from
the mean TEST accuracy. -/
def rfAbsTestScore (trainScores testScores : List ℚ) : List ℚ :=
  trainScores.map fun s => |s - listMean testScores|

/-- `abs_test_score` of `train_ai_med_nb` and `train_ai_med_adv_nb`
(runners.py 542, 828): absolute deviation of each fold's test accuracy from
the mean test accuracy. -/
def nbAbsTestScore (testScores : List ℚ) : List ℚ :=
  testScores.map fun s => |s - listMean testScores|

/-- The scorer loop of every cross-validated runner (runners.py 376-386,
534-542, 665-675, 820-828): `abs_test_score` starts as `None` and is assigned
the deviation vector computed for a key exactly when that key is the accuracy
key.  `dev` is the per-key deviation vector: `nbAbsTestScore` of the fold
test scores in the NB runners, `rfAbsTestScore` in the RF runners. -/
def runnerAbsTestScore (dev : String → List ℚ) (keys : List String) : Option (List ℚ) :=
  keys.foldl (fun acc key => if key = ACCURACY_SCORE then some (dev key) else acc) none

/-- Index of the fold estimator persisted in the model artifact
(runners.py 398-404, 557-563, 687-693, 843-849): `np.argmin(abs_test_score)`
when the vector was assigned, else fold 0. -/
def runnerSavedIdx (dev : String → List ℚ) (keys : List String) : ℕ :=
  match runnerAbsTestScore dev keys with
  | some v => argmin v
  | none => 0

/-! ## Error-handling control flow of the `train_*` runners (C4)

Each runner wraps its whole body in one `try`.  The embedding maps the body
outcome (normal return or raised exception with its message) to the runner's
observable outcome: `Except.ok res` for a normal return of `res`,
`Except.error e` for a propagated exception. -/

/-- `train_rf` (runners.py 142-147): the handler logs the message and falls
through to `return False`. -/
def trainRfResult (body : Except String Unit) : Except String Bool :=
  match body with
  | Except.ok _ => Except.ok true
  | Except.error _ => Except.ok false

/-- `train_nb` (runners.py 282-288): the handler's first statement is
`raise e`; the logging and `res = False` below it are unreachable. -/
def trainNbResult (body : Except String Unit) : Except String Bool :=
  match body with
  | Except.ok _ => Except.ok true
  | Except.error e => Except.error e

/-- `train_ai_med_rf` (runners.py 415-420): catches, logs, returns False. -/
def trainAiMedRfResult (body : Except String Unit) : Except String Bool :=
  match body with
  | Except.ok _ => Except.ok true
  | Except.error _ => Except.ok false

/-- `train_ai_med_nb` (runners.py 574-580): the handler re-raises first. -/
def trainAiMedNbResult (body : Except String Unit) : Except String Bool :=
  match body with
  | Except.ok _ => Except.ok true
  | Except.error e => Except.error e

/-- `train_ai_med_adv_rf` (runners.py 703-708): catches, logs, returns False. -/
def trainAiMedAdvRfResult (body : Except String Unit) : Except String Bool :=
  match body with
  | Except.ok _ => Except.ok true
  | Except.error _ => Except.ok false

/-- `train_ai_med_adv_nb` (runners.py 859-865): the handler re-raises first. -/
def trainAiMedAdvNbResult (body : Except String Unit) : Except String Bool :=
  match body with
  | Except.ok _ => Except.ok true
  | Except.error e => Except.error e

/-! ## Age standardization statistics (C6)

The sparsifier classes are not under src; their fit/transform contract is
modelled from the specification: `fit` computes the age statistics once over
the rows it is given, `transform` is a pure function of the fitted state and
its input and never updates the state. -/

/-- Fitted state of a sparsifier: the age statistics recorded at fit time.
The standard deviation is an irrational square root; the state keeps the
exact moments (mean and mean of squares) that determine it. -/
structure SparseMakerState where
  ageMean : ℚ
  ageMeanSq : ℚ

/-- Modelled from the spec: `fit` of `DLSparseMaker` and of the
`Thesis*SparseMaker` classes (not under src) computes the age statistics over
the AGE column of the rows it receives. -/
def fitSparsifier (ages : List ℚ) : SparseMakerState :=
  ⟨listMean ages, listMean (ages.map fun a => a * a)⟩

/-- Modelled from the spec: `transform` standardizes each age using only the
fitted statistics, recomputing nothing.  The division by the irrational
standard deviation is elided; the dependence on the fitted state, which the
claim concerns, is kept exactly. -/
def transformAges (st : SparseMakerState) (ages : List ℚ) : List ℚ :=
  ages.map fun a => a - st.ageMean

/-- Row selection by positional indices, as the split index arrays do. -/
def selectRows (rows : List ℚ) (idx : List ℕ) : List ℚ :=
  idx.map fun i => rows.getD i 0

/-- `Bench.prep_loaders` (bench.py 114-125): split first, fit the sparsifier
on the train split alone, transform both splits with the same fitted
instance.  Returns (train rows, validation rows, fitted state). -/
def benchPrep (trainAges valAges : List ℚ) : List ℚ × List ℚ × SparseMakerState :=
  let st := fitSparsifier trainAges
  (transformAges st trainAges, transformAges st valAges, st)

/-- `train_nb` and the other ML runners (runners.py 177-197, 461-474):
`sparsifier.fit_transform` over the whole dataset, and only then the
train/test split by row indices.  Returns (train rows, test rows, fitted
state). -/
def mlPrep (allAges : List ℚ) (trainIdx testIdx : List ℕ) :
    List ℚ × List ℚ × SparseMakerState :=
  let st := fitSparsifier allAges
  let transformed := transformAges st allAges
  (selectRows transformed trainIdx, selectRows transformed testIdx, st)

/-! ## Encoded width and the dimension check (C7) -/

/-- Modelled from the spec: one row of the raw table.  `symptoms` lists the
vocabulary index of each present symptom together with its seven sub-attribute
codes (absent sub-attributes are the sentinel 0). -/
structure RawRecord where
  gender : ℚ
  race : ℚ
  age : ℚ
  symptoms : List (ℕ × List ℚ)

/-- Vocabulary indices of the symptoms present in a record. -/
def presentIndices (r : RawRecord) : List ℕ := r.symptoms.map Prod.fst

/-- Binary presence indicator of vocabulary entry `j`. -/
def presenceFlag (r : RawRecord) (j : ℕ) : ℚ :=
  if j ∈ presentIndices r then 1 else 0

/-- Value of sub-attribute `i` of symptom `j`; 0 when the symptom is absent
or the sub-attribute is not reported. -/
def subAttrValue (r : RawRecord) (j i : ℕ) : ℚ :=
  match r.symptoms.lookup j with
  | none => 0
  | some attrs => attrs.getD i 0

/-- Modelled from the spec: basic encoder row layout, `[gender, race, age]`
then one presence column per vocabulary entry. -/
def encodeBasicRow (n : ℕ) (r : RawRecord) : List ℚ :=
  [r.gender, r.race, r.age] ++ (List.range n).map fun j => presenceFlag r j

/-- Modelled from the spec: NLICE encoder row layout, `[gender, race, age]`
then, per vocabulary entry, the presence flag followed by its seven reserved
sub-attribute slots. -/
def encodeNliceRow (n : ℕ) (r : RawRecord) : List ℚ :=
  [r.gender, r.race, r.age] ++
    ((List.range n).map fun j =>
      presenceFlag r j :: (List.range 7).map fun i => subAttrValue r j i).flatten

/-- The assert of `Bench.prep_loaders` (bench.py 128-129): the width of the
prepped data must equal the declared input dimension, else the run aborts
with a dimension-mismatch error. -/
def benchDimCheck (inputDim declaredDim : ℕ) : Except String ℕ :=
  if inputDim = declaredDim then Except.ok inputDim
  else Except.error "Dimension of prepped data does not match specified input dimension"

/-! ## `Bench.run` control flow (C9) -/

/-- Body of the `try` in `Bench.run` (bench.py 192-203): compose the runner,
fit, save results, in order; the first raised exception aborts the rest. -/
def benchRunBody (compose fit save : Except String Unit) : Except String Unit :=
  match compose with
  | Except.error e => Except.error e
  | Except.ok _ =>
    match fit with
    | Except.error e => Except.error e
    | Except.ok _ => save

/-- `Bench.run` (bench.py 186-212): any exception of the body is caught, the
`complete` metric is 0 and the exception message becomes the logged message;
a successful body gives `complete = 1` and message `success`.  The metrics and
parameters are logged in both cases, and `run` itself returns normally. -/
def benchRunOutcome (compose fit save : Except String Unit) : ℕ × String :=
  match benchRunBody compose fit save with
  | Except.ok _ => (1, "success")
  | Except.error e => (0, e)

/-- Concrete record used to instantiate the encoder width theorem. -/
def sampleRecord : RawRecord :=
  ⟨0, 1, 30, [(0, [1, 2, 3, 4, 5, 6, 7])]⟩

/-! ## Helper lemmas -/

/-- A list of distinct in-range indices followed by the remaining columns in
order is a permutation of all columns. -/
theorem perm_reg_append_bern {reg : List ℕ} {W : ℕ} (hnd : reg.Nodup)
    (hlt : ∀ x ∈ reg, x < W) :
    List.Perm (reg ++ bernIndices reg W) (List.range W) := by
  have h1 : List.Perm ((List.range W).filter (fun x => decide (x ∈ reg)) ++
      (List.range W).filter (fun x => !(decide (x ∈ reg)))) (List.range W) :=
    List.filter_append_perm _ _
  have h2 : List.Perm reg ((List.range W).filter (fun x => decide (x ∈ reg))) := by
    apply List.perm_of_nodup_nodup_toFinset_eq hnd
    · exact List.Nodup.filter _ (List.nodup_range W)
    · ext x
      simp only [List.mem_toFinset, List.mem_filter, List.mem_range, decide_eq_true_eq]
      exact ⟨fun hx => ⟨hlt x hx, hx⟩, fun hx => hx.2⟩
  have h3 : bernIndices reg W = (List.range W).filter (fun x => !(decide (x ∈ reg))) := by
    simp [bernIndices]
  rw [h3]
  exact (h2.append_right _).trans h1

/-- The scorer loop leaves the accumulator untouched on keys other than the
accuracy key. -/
theorem foldl_no_accuracy (dev : String → List ℚ) :
    ∀ (keys : List String) (acc : Option (List ℚ)),
      (∀ k ∈ keys, k ≠ ACCURACY_SCORE) →
      keys.foldl (fun acc key => if key = ACCURACY_SCORE then some (dev key) else acc) acc = acc := by
  intro keys
  induction keys with
  | nil => intro acc _; rfl
  | cons k ks ih =>
    intro acc h
    have hk : k ≠ ACCURACY_SCORE := h k (List.mem_cons_self k ks)
    simp only [List.foldl_cons, if_neg hk]
    exact ih acc fun x hx => h x (List.mem_cons_of_mem k hx)

/-- Below the uint16 wrap threshold, an advanced sub-attribute index block is
the plain arithmetic-progression block. -/
theorem advBlock_eq (n : ℕ) (h : n ≤ 8191) (c t : ℕ) (hct : 3 + c = t) (hc : c ≤ 7) :
    (symptomIndices n).map (fun x => u16 (x + c)) = (List.range n).map fun k => t + 8 * k := by
  unfold symptomIndices
  rw [List.map_map]
  apply List.map_congr_left
  intro k hk
  rw [List.mem_range] at hk
  simp only [Function.comp_apply, u16]
  omega

/-- Below the uint16 wrap threshold the presence block is untouched by the
modulus. -/
theorem symptomIndices_eq (n : ℕ) (h : n ≤ 8191) :
    symptomIndices n = (List.range n).map fun k => 3 + 8 * k := by
  unfold symptomIndices
  apply List.map_congr_left
  intro k hk
  rw [List.mem_range] at hk
  simp only [u16]
  omega

/-! ## C1: feature-group ranges partition the column space -/

/-- C1 counterexample: at num_symptoms = 1 the advanced-NLICE classifier-map
ranges do not partition the reordered matrix of width 3 + 8*1 = 11 — the
categorical range `[4, 169)` reaches far outside the matrix — so the claim
fails as stated for every num_symptoms. -/
theorem c1_advanced_not_partition_at_one :
    ¬ PartitionsWidth (advClassifierRanges 1) (advNumFeatures 1) := by decide

/-- C1 amended: the basic classifier-map ranges 0, 1, 2, `[3, None)` partition
`[0, 3 + num_symptoms)` for every num_symptoms, and the advanced-NLICE ranges,
whose categorical slice is the fixed constant 5*33 = 165 columns, partition
`[0, 3 + 8*num_symptoms)` exactly when the fixed slice fits, i.e. for
num_symptoms ≥ 24. -/
theorem c1_ranges_partition (n : ℕ) :
    PartitionsWidth (basicClassifierRanges n) (3 + n) ∧
    (24 ≤ n → PartitionsWidth (advClassifierRanges n) (advNumFeatures n)) := by
  constructor
  · show List.Perm (coveredColumns (basicClassifierRanges n)) (List.range (3 + n))
    have hcov : coveredColumns (basicClassifierRanges n) = List.Ico 0 (3 + n) := by
      simp only [coveredColumns, basicClassifierRanges, List.map_cons, List.map_nil,
        List.flatten_cons, List.flatten_nil, List.append_nil]
      rw [List.Ico.append_consecutive (by omega) (by omega),
        List.Ico.append_consecutive (by omega) (by omega),
        List.Ico.append_consecutive (by omega) (by omega)]
    rw [hcov, List.Ico.zero_bot]
  · intro h
    show List.Perm (coveredColumns (advClassifierRanges n)) (List.range (advNumFeatures n))
    have hse : (3 : ℕ) ≤ symptomIndicesEnd n := by simp [symptomIndicesEnd]
    have hsc : symptomIndicesEnd n ≤ categoricalIndicesEnd n := by
      simp [categoricalIndicesEnd]
    have hcf : categoricalIndicesEnd n ≤ advNumFeatures n := by
      simp only [categoricalIndicesEnd, symptomIndicesEnd, advNumFeatures]
      omega
    have hcov : coveredColumns (advClassifierRanges n) = List.Ico 0 (advNumFeatures n) := by
      simp only [coveredColumns, advClassifierRanges, List.map_cons, List.map_nil,
        List.flatten_cons, List.flatten_nil, List.append_nil]
      rw [List.Ico.append_consecutive hsc hcf,
        List.Ico.append_consecutive hse (le_trans hsc hcf),
        List.Ico.append_consecutive (by omega) (le_trans hse (le_trans hsc hcf)),
        List.Ico.append_consecutive (by omega) (by omega),
        List.Ico.append_consecutive (by omega) (by omega)]
    rw [hcov, List.Ico.zero_bot]

/-- C1 witness: the amended partition statement at num_symptoms = 33, the
vocabulary size for which the 165-column categorical slice is designed. -/
theorem c1_ranges_partition_witness :
    24 ≤ 33 ∧ PartitionsWidth (basicClassifierRanges 33) (3 + 33) ∧
      PartitionsWidth (advClassifierRanges 33) (advNumFeatures 33) :=
  ⟨by decide, (c1_ranges_partition 33).1, (c1_ranges_partition 33).2 (by decide)⟩

/-! ## C2: the advanced column reordering -/

/-- C2 amended: for every num_symptoms small enough that all column indices
fit in the uint16 dtype of `np.arange` (num_symptoms ≤ 8191), `new_indices`
places the three demographic columns first, then all symptom presence columns
(original interleaved positions 3+8k), then the categorical sub-attribute
blocks in the order nature, location, intensity, excitation, frequency, and
finally duration then onset.  At num_symptoms ≥ 8192 the uint16 arithmetic
wraps and the arrangement fails. -/
theorem c2_adv_new_indices (n : ℕ) (h : n ≤ 8191) :
    advNewIndices n = advNewIndicesSpec n := by
  unfold advNewIndices advNewIndicesSpec advRegIndices natureIndices locationIndices
    intensityIndices excitationIndices frequencyIndices durationIndices onsetIndices
  rw [advBlock_eq n h 1 4 (by norm_num) (by norm_num),
    advBlock_eq n h 2 5 (by norm_num) (by norm_num),
    advBlock_eq n h 3 6 (by norm_num) (by norm_num),
    advBlock_eq n h 6 9 (by norm_num) (by norm_num),
    advBlock_eq n h 7 10 (by norm_num) (by norm_num),
    advBlock_eq n h 4 7 (by norm_num) (by norm_num),
    advBlock_eq n h 5 8 (by norm_num) (by norm_num),
    symptomIndices_eq n h]

/-- C2 witness: the amended arrangement at num_symptoms = 2. -/
theorem c2_adv_new_indices_witness :
    2 ≤ 8191 ∧ advNewIndices 2 = advNewIndicesSpec 2 :=
  ⟨by decide, c2_adv_new_indices 2 (by decide)⟩

/-- C2 counterexample: at num_symptoms = 8192 the last frequency index,
nominally 10 + 8*8191 = 65538, wraps to 2 in uint16, so `new_indices` is not
the arrangement the claim describes.  The lists differ at position
3 + 5*8192 + 8191 = 49154. -/
theorem c2_uint16_wrap_counterexample : advNewIndices 8192 ≠ advNewIndicesSpec 8192 := by
  intro heq
  simp only [advNewIndices, advNewIndicesSpec, advRegIndices] at heq
  have hlen : ∀ (f : ℕ → ℕ), ((List.range 8192).map f).length = 8192 := by
    intro f; simp
  have hlen2 : ∀ (f g : ℕ → ℕ), ((symptomIndices 8192).map f).length =
      ((List.range 8192).map g).length := by
    intro f g; simp [symptomIndices]
  have h1 := List.append_inj' heq (hlen2 _ _)
  have h2 := List.append_inj' h1.1 (hlen2 _ _)
  have h3 := List.append_inj' h2.1 (hlen2 _ _)
  have hfreq : (symptomIndices 8192).map (fun x => u16 (x + 7)) =
      (List.range 8192).map (fun k => 10 + 8 * k) := h3.2
  have hlast := congrArg (fun l => l[8191]?) hfreq
  simp only [symptomIndices, List.map_map, List.getElem?_map, List.getElem?_range,
    Function.comp_apply] at hlast
  norm_num [u16] at hlast

/-! ## C3: which fold estimator is persisted -/

/-- C3: with per-fold train accuracies [9/10, 3/5] and test accuracies
[1/5, 4/5] (mean test 1/2), the RF runners persist fold 1 — the argmin of
`|train - mean test| = [2/5, 1/10]` — while the fold of minimum absolute
deviation of the TEST score from the mean test score, which the claim
requires, is fold 0 (deviations [3/10, 3/10], ties to the first).  The NB
runners do select by test-score deviation. -/
theorem c3_fold_selection_eval :
    runnerSavedIdx (fun _ => rfAbsTestScore [9/10, 3/5] [1/5, 4/5]) [ACCURACY_SCORE] = 1 ∧
    runnerSavedIdx (fun _ => nbAbsTestScore [1/5, 4/5]) [ACCURACY_SCORE] = 0 := by
  constructor <;>
    norm_num [runnerSavedIdx, runnerAbsTestScore, rfAbsTestScore, nbAbsTestScore,
      argmin, argminAux, listMean, abs]

/-! ## C4: exception handling of the train_* runners -/

/-- C4: when the body of a runner raises (message `fit failed`), the three NB
runners re-raise the exception — their handler begins with `raise e`, leaving
the logging and `res = False` dead — while the RF runners catch it and return
False as the claim describes for all six. -/
theorem c4_nb_runners_reraise :
    trainNbResult (Except.error "fit failed") = Except.error "fit failed" ∧
    trainAiMedNbResult (Except.error "fit failed") = Except.error "fit failed" ∧
    trainAiMedAdvNbResult (Except.error "fit failed") = Except.error "fit failed" ∧
    trainRfResult (Except.error "fit failed") = Except.ok false ∧
    trainAiMedRfResult (Except.error "fit failed") = Except.ok false ∧
    trainAiMedAdvRfResult (Except.error "fit failed") = Except.ok false :=
  ⟨rfl, rfl, rfl, rfl, rfl, rfl⟩

/-! ## C5: encoded column index of the nlice symptoms -/

/-- C5 counterexample: for the vocabulary with insertion order
`["fever", "cough"]`, the runner computes index 3 for `cough` (its rank in the
lexicographically sorted key list, plus 3), while the claim's
insertion-order index plus 3 is 4. -/
theorem c5_insertion_order_counterexample :
    nliceIndices ["fever", "cough"] ["cough"] ≠
      ["cough"].map fun k => insertionOrderIndex ["fever", "cough"] k := by
  have hv : symptomVector ["fever", "cough"] = ["cough", "fever"] := by
    apply List.eq_of_perm_of_sorted (r := (· ≤ ·))
      ((List.mergeSort_perm _ _).trans (List.Perm.swap _ _ _))
    · exact List.sorted_mergeSort' _
    · simp only [List.Sorted, List.pairwise_cons, List.Pairwise.nil, List.mem_singleton,
        List.not_mem_nil, String.le_iff_toList_le, and_true]
      refine ⟨fun b hb => ?_, fun b hb => hb.elim⟩
      rw [hb]
      decide
  simp only [nliceIndices, sortedSymptomIndex, insertionOrderIndex, hv, List.map_cons,
    List.map_nil]
  decide

/-- C5 amended: the column index computed in `train_ai_med_nb` is the
symptom's rank in the lexicographically sorted vocabulary keys plus 3; it
equals the insertion-order vocabulary index plus 3 exactly when the
vocabulary's key list is already sorted, as proved here. -/
theorem c5_sorted_vocab_index (keys nlice : List String)
    (hs : List.Sorted (· ≤ ·) keys) :
    nliceIndices keys nlice = nlice.map fun k => insertionOrderIndex keys k := by
  have hv : symptomVector keys = keys := List.mergeSort_eq_self hs
  simp [nliceIndices, sortedSymptomIndex, insertionOrderIndex, hv]

/-- C5 witness: the amended statement on the sorted two-symptom vocabulary. -/
theorem c5_sorted_vocab_index_witness :
    List.Sorted (· ≤ ·) (["cough", "fever"] : List String) ∧
      nliceIndices ["cough", "fever"] ["fever"] =
        ["fever"].map fun k => insertionOrderIndex ["cough", "fever"] k := by
  have hs : List.Sorted (· ≤ ·) (["cough", "fever"] : List String) := by
    simp only [List.Sorted, List.pairwise_cons, List.Pairwise.nil, List.mem_singleton,
      List.not_mem_nil, String.le_iff_toList_le, and_true]
    refine ⟨fun b hb => ?_, fun b hb => hb.elim⟩
    rw [hb]
    decide
  exact ⟨hs, c5_sorted_vocab_index ["cough", "fever"] ["fever"] hs⟩

/-! ## C6: age statistics fit once, on which rows -/

/-- C6 counterexample: with ages `[0, 2]`, train split row 0 and test split
row 1, the fitted statistics the ML runner uses on the held-out test row have
age mean 1 — they were computed by `fit_transform` over the whole dataset
before the split — while statistics computed at fit time from the training
set alone would have age mean 0, refuting the claim's ML-runner half. -/
theorem c6_ml_stats_from_full_dataset :
    (mlPrep [0, 2] [0] [1]).2.2 ≠ fitSparsifier (selectRows [0, 2] [0]) := by
  intro h
  have hm := congrArg SparseMakerState.ageMean h
  norm_num [mlPrep, fitSparsifier, selectRows, listMean] at hm

/-- C6 amended: statistics are computed exactly once at fit time and reused
unchanged by every transform; in the DL bench they are fitted on the training
split alone and the same fitted state transforms the validation split, while
in the ML runners the fitted state used on the held-out test rows is computed
over the entire dataset (training and test rows together) before the split —
not over the training set alone. -/
theorem c6_fit_once_statistics (trainAges valAges allAges : List ℚ)
    (trainIdx testIdx : List ℕ) :
    (benchPrep trainAges valAges).2.2 = fitSparsifier trainAges ∧
    (benchPrep trainAges valAges).2.1 = transformAges (fitSparsifier trainAges) valAges ∧
    (mlPrep allAges trainIdx testIdx).2.2 = fitSparsifier allAges ∧
    (mlPrep allAges trainIdx testIdx).2.1 =
      selectRows (transformAges (fitSparsifier allAges) allAges) testIdx :=
  ⟨rfl, rfl, rfl, rfl⟩

/-! ## C7: encoded width matches the declared dimension -/

/-- C7: every encoded row has the declared width of its variant — basic
`3 + num_symptoms`, NLICE `3 + 8*num_symptoms`, and the runner's declared
`num_features` equals the latter — and the bench dimension check fails with
the dimension-mismatch error, rather than proceeding, whenever the produced
width differs from the declared input dimension. -/
theorem c7_encoded_width (n : ℕ) (r : RawRecord) :
    (encodeBasicRow n r).length = 3 + n ∧
    (encodeNliceRow n r).length = 3 + 8 * n ∧
    advNumFeatures n = 3 + 8 * n ∧
    (∀ w d : ℕ, w ≠ d → benchDimCheck w d =
      Except.error "Dimension of prepped data does not match specified input dimension") ∧
    (∀ w : ℕ, benchDimCheck w w = Except.ok w) := by
  refine ⟨by simp [encodeBasicRow]; omega, ?_, ?_, ?_, ?_⟩
  · have hblocks : ∀ m : ℕ,
        (((List.range m).map fun j =>
          presenceFlag r j :: (List.range 7).map fun i => subAttrValue r j i).flatten).length
          = 8 * m := by
      intro m
      rw [List.length_flatten, List.map_map]
      have hpt : ∀ j ∈ List.range m,
          (List.length ∘ fun j =>
            presenceFlag r j :: (List.range 7).map fun i => subAttrValue r j i) j = 8 := by
        intro j hj
        simp
      rw [List.map_congr_left hpt, List.map_const', List.sum_replicate,
        List.length_range, smul_eq_mul, Nat.mul_comm]
    simp only [encodeNliceRow, List.length_append, hblocks]
    simp
  · simp [advNumFeatures]; omega
  · intro w d hwd
    simp [benchDimCheck, hwd]
  · intro w
    simp [benchDimCheck]

/-- C7 witness: widths and the failing dimension check at concrete inputs. -/
theorem c7_encoded_width_witness :
    (encodeBasicRow 2 sampleRecord).length = 3 + 2 ∧
    (encodeNliceRow 2 sampleRecord).length = 3 + 8 * 2 ∧
    (3 : ℕ) ≠ 4 ∧
    benchDimCheck 3 4 =
      Except.error "Dimension of prepped data does not match specified input dimension" :=
  ⟨(c7_encoded_width 2 sampleRecord).1, (c7_encoded_width 2 sampleRecord).2.1,
    by decide, (c7_encoded_width 2 sampleRecord).2.2.2.1 3 4 (by decide)⟩

/-! ## C8: the NLICE reorderings are permutations -/

/-- C8 counterexample: in `train_nb` with num_symptoms = 2 the NLICE encoded
width is 8*2 + 3 = 19, but `reg_indices` hard-codes the column 25, so
`new_indices` contains 25, drops some column below 19, and is not a
permutation of `range(19)`, refuting the claim for every NLICE branch. -/
theorem c8_train_nb_not_permutation_at_two :
    ¬ List.Perm (trainNbNewIndices 19) (List.range 19) := by decide

/-- C8 amended: `new_indices = reg_indices + bern_indices` is a permutation of
`range(width)` provided every reg index is below the width: in `train_nb` this
needs the hard-coded indices 9, 12, 20, 25 in range, i.e. width ≥ 26
(num_symptoms ≥ 3 for the NLICE width 8n+3); in `train_ai_med_nb` it holds
for the NLICE width 8n+3 whenever the vocabulary keys are distinct and the
nlice_symptoms name distinct vocabulary entries. -/
theorem c8_new_indices_permutation :
    (∀ W : ℕ, 26 ≤ W → List.Perm (trainNbNewIndices W) (List.range W)) ∧
    (∀ keys nlice : List String, keys.Nodup → nlice.Nodup → (∀ s ∈ nlice, s ∈ keys) →
      List.Perm (aiMedNewIndices keys nlice (8 * keys.length + 3))
        (List.range (8 * keys.length + 3))) := by
  constructor
  · intro W hW
    apply perm_reg_append_bern
    · decide
    · intro x hx
      have hx25 : x ≤ 25 := by
        have : ∀ y ∈ trainNbRegIndices, y ≤ 25 := by decide
        exact this x hx
      omega
  · intro keys nlice hkeys hnlice hsub
    have hmem : ∀ s ∈ nlice, s ∈ symptomVector keys := by
      intro s hs
      exact (List.mergeSort_perm keys _).mem_iff.mpr (hsub s hs)
    have hrank : ∀ s ∈ nlice, sortedSymptomIndex keys s < keys.length := by
      intro s hs
      have := List.indexOf_lt_length.mpr (hmem s hs)
      have hlen : (symptomVector keys).length = keys.length :=
        (List.mergeSort_perm keys _).length_eq
      rw [hlen] at this
      exact this
    apply perm_reg_append_bern
    · rw [aiMedRegIndices, List.nodup_append]
      refine ⟨by decide, ?_, ?_⟩
      · rw [nliceIndices]
        apply List.Nodup.map_on ?_ hnlice
        intro x hx y hy hxy
        have hxy2 : sortedSymptomIndex keys x = sortedSymptomIndex keys y := by omega
        exact (List.indexOf_inj (hmem x hx) (hmem y hy)).mp hxy2
      · intro a ha hb
        have ha3 : 3 ≤ a := by
          rw [nliceIndices] at hb
          obtain ⟨k, _, hk⟩ := List.mem_map.mp hb
          omega
        have ha2 : a ≤ 2 := by
          have h012 : ∀ y ∈ ([0, 1, 2] : List ℕ), y ≤ 2 := by decide
          exact h012 a ha
        omega
    · intro x hx
      rw [aiMedRegIndices, List.mem_append] at hx
      rcases hx with hx | hx
      · have : ∀ y ∈ ([0, 1, 2] : List ℕ), y ≤ 2 := by decide
        have := this x hx
        omega
      · rw [nliceIndices] at hx
        obtain ⟨k, hk, hkx⟩ := List.mem_map.mp hx
        have := hrank k hk
        omega

/-- C8 witness: the amended permutation statement at width 27 for `train_nb`
and at the one-symptom vocabulary for `train_ai_med_nb`. -/
theorem c8_new_indices_permutation_witness :
    (26 ≤ 27 ∧ List.Perm (trainNbNewIndices 27) (List.range 27)) ∧
    List.Perm (aiMedNewIndices ["fever"] ["fever"] (8 * (["fever"] : List String).length + 3))
      (List.range (8 * (["fever"] : List String).length + 3)) :=
  ⟨⟨by decide, c8_new_indices_permutation.1 27 (by decide)⟩,
    c8_new_indices_permutation.2 ["fever"] ["fever"] (by decide) (by decide)
      (by intro s hs; exact hs)⟩

/-! ## C9: Bench.run catches every body failure and always logs -/

/-- C9: Bench.run maps a successful body (composition, fit, save) to the
logged pair `(complete = 1, message = success)` and a body failing with
message `e` to `(complete = 0, message = e)`; `benchRunOutcome` is total, so
no body exception propagates out of `run`, and the logged metrics and
parameters are exactly this pair. -/
theorem c9_run_catches (compose fit save : Except String Unit) :
    (benchRunBody compose fit save = Except.ok () →
      benchRunOutcome compose fit save = (1, "success")) ∧
    (∀ e, benchRunBody compose fit save = Except.error e →
      benchRunOutcome compose fit save = (0, e)) := by
  constructor
  · intro h
    rw [benchRunOutcome, h]
  · intro e h
    rw [benchRunOutcome, h]

/-- C9 witness: a clean run and a run whose fit step raises. -/
theorem c9_run_catches_witness :
    benchRunOutcome (Except.ok ()) (Except.ok ()) (Except.ok ()) = (1, "success") ∧
    benchRunOutcome (Except.ok ()) (Except.error "device lost") (Except.ok ()) =
      (0, "device lost") :=
  ⟨(c9_run_catches (Except.ok ()) (Except.ok ()) (Except.ok ())).1 rfl,
    (c9_run_catches (Except.ok ()) (Except.error "device lost") (Except.ok ())).2
      "device lost" rfl⟩

/-! ## C10: default fold when accuracy is not tracked -/

/-- C10: in every cross-validated runner, when the accuracy key is not among
the tracked scorer keys, the fold-selection vector stays `None` and the
persisted estimator defaults to the first fold, index 0 — for any deviation
computation `dev`, covering the RF and NB variants alike. -/
theorem c10_default_first_fold (dev : String → List ℚ) (keys : List String)
    (h : ¬ ACCURACY_SCORE ∈ keys) :
    runnerAbsTestScore dev keys = none ∧ runnerSavedIdx dev keys = 0 := by
  have hnone : runnerAbsTestScore dev keys = none := by
    rw [runnerAbsTestScore]
    exact foldl_no_accuracy dev keys none fun k hk hkeq => h (hkeq ▸ hk)
  exact ⟨hnone, by rw [runnerSavedIdx, hnone]⟩

/-- C10 witness: a scorer-key list without the accuracy key. -/
theorem c10_default_first_fold_witness :
    ¬ ACCURACY_SCORE ∈ ["precision_weighted", "recall_weighted", "top_5_score"] ∧
    runnerAbsTestScore (fun _ => [1, 0])
      ["precision_weighted", "recall_weighted", "top_5_score"] = none ∧
    runnerSavedIdx (fun _ => [1, 0])
      ["precision_weighted", "recall_weighted", "top_5_score"] = 0 :=
  ⟨by decide,
    (c10_default_first_fold (fun _ => [1, 0]) _ (by decide)).1,
    (c10_default_first_fold (fun _ => [1, 0]) _ (by decide)).2⟩

end Thesislib
